import Mathlib

set_option maxHeartbeats 1000000

/-!
Shallow embedding of the udiald modem control engine (src/udiald.c and
src/tty.c of the repository) together with theorems checking the
natural-language specification against it.

Machine strings are modelled as lists of characters; the bounded C buffers
(whose sizes live in the header udiald.h, which is not among the provided
sources) are modelled by explicit size parameters; the serial line is
modelled by the sequence of data chunks each successful poll round makes
available to the reader.
-/

/-- Bytes of a NUL-terminated C string, without the terminator. -/
abbrev Line := List Char

/-- Error kinds of udiald. The header udiald.h is not among the provided
sources; the constructors and their numbering follow the Return Codes
section printed by udiald_usage in udiald.c (0 OK, 1 syntax, 2 internal,
3 signal, 4 no modem, 5 modem, 6 SIM, 7 SIM unlock, 8 dial, 9 PPP auth,
10 PPP, 11 network), which agrees with section 6 of the specification. -/
inductive ErrCode
  | ok
  | einval
  | einternal
  | esignaled
  | edev
  | emodem
  | esim
  | eunlock
  | edial
  | eauth
  | eppp
  | enetwork
  deriving DecidableEq

/-- Numeric process exit code of each error kind. -/
def ErrCode.toExit : ErrCode → Nat
  | .ok => 0
  | .einval => 1
  | .einternal => 2
  | .esignaled => 3
  | .edev => 4
  | .emodem => 5
  | .esim => 6
  | .eunlock => 7
  | .edial => 8
  | .eauth => 9
  | .eppp => 10
  | .enetwork => 11

/-- The fixed table ttyresstr of AT terminator codes from tty.c, in array
order: the reader returns the index of the first entry that is a prefix of
a just-committed line. -/
def ttyresstr : List Line :=
  [("OK").toList, ("CONNECT").toList, ("ERROR").toList, ("+CME ERROR").toList,
   ("NO DIALTONE").toList, ("BUSY").toList, ("NO CARRIER").toList,
   ("COMMAND NOT SUPPORT").toList]

/-- Index of "OK" in ttyresstr (enum value UDIALD_AT_OK). -/
def UDIALD_AT_OK : Nat := 0

/-- First index i (counting from the accumulator) whose table entry is a
prefix of the line, mirroring the strncmp loop at the end of
udiald_tty_get. -/
def findTermIdx : List Line → Line → Nat → Option Nat
  | [], _, _ => none
  | t :: ts, start, i =>
    if t.isPrefixOf start then some i else findTermIdx ts start (i + 1)

/-- Observable content of a struct udiald_tty_read after a call: the
committed lines (raw_lines[0..lines-1]) and the recorded result line. -/
structure TtyRead where
  lines : List Line
  result_line : Option Line
  deriving DecidableEq

/-- Result of udiald_tty_get: a terminator tag (index into ttyresstr), or
-1 with errno ETIMEDOUT (poll expired) or ERANGE (line or byte budget
exhausted), each together with the buffer contents at that point. -/
inductive TtyGetResult
  | term (tag : Nat) (r : TtyRead)
  | errTimedOut (r : TtyRead)
  | errRange (r : TtyRead)
  deriving DecidableEq

def TtyGetResult.read : TtyGetResult → TtyRead
  | .term _ r => r
  | .errTimedOut r => r
  | .errRange r => r

/-- Whether the transaction returned the UDIALD_AT_OK terminator. -/
def TtyGetResult.isOk : TtyGetResult → Bool
  | .term 0 _ => true
  | _ => false

/-- In-flight state of the udiald_tty_get loop: committed lines, the bytes
of the line currently being assembled, the in_newline flag, the recorded
result line, and rem, the remaining byte budget (an Int because the inner
read loop of tty.c does not re-check rem between bytes of one poll
round). -/
structure TtyState where
  committed : List Line
  cur : Line
  in_newline : Bool
  result_line : Option Line
  rem : Int
  deriving DecidableEq

/-- Outcome of processing one byte or one chunk: either the loop continues
with a new state or udiald_tty_get returns. -/
inductive StepOut
  | cont (s : TtyState)
  | done (res : TtyGetResult)
  deriving DecidableEq

/-- Update of r.result_line on committing a line: recorded only if no
result line is recorded yet, a prefix was supplied, and the prefix matches
the start of the committed line. -/
def updResult (rpfx : Option Line) (old : Option Line) (start : Line) : Option Line :=
  match old, rpfx with
  | some r, _ => some r
  | none, some p => if p.isPrefixOf start then some start else none
  | none, none => none

/-- Processing of a CR or LF byte that ends a non-empty line in
udiald_tty_get: a line starting with a caret is an asynchronous unsolicited
notification and is discarded by rewinding the write cursor (the continue
statement also skips the budget update); otherwise the line is committed,
the result line possibly recorded, and the terminator table consulted. -/
def commitLine (rpfx : Option Line) (s : TtyState) : StepOut :=
  if s.cur.head? = some '^' then
    StepOut.cont { s with cur := [], in_newline := true }
  else
    match findTermIdx ttyresstr s.cur 0 with
    | some i =>
      StepOut.done (TtyGetResult.term i
        ⟨s.committed ++ [s.cur], updResult rpfx s.result_line s.cur⟩)
    | none =>
      StepOut.cont
        ⟨s.committed ++ [s.cur], [], true, updResult rpfx s.result_line s.cur, s.rem - 1⟩

/-- One byte of the inner read loop of udiald_tty_get. CR and LF collapse
(rxed is forced to 0 while in_newline); a non-newline byte while in_newline
starts a new line after the sentinel check on the line array; committing is
delegated to commitLine. -/
def procChar (lineCap : Nat) (rpfx : Option Line) (s : TtyState) (ch : Char) : StepOut :=
  if ch = '\r' ∨ ch = '\n' then
    if s.in_newline then StepOut.cont s
    else commitLine rpfx s
  else
    if s.in_newline then
      if s.committed.length = lineCap - 1 then
        StepOut.done (TtyGetResult.errRange ⟨s.committed, s.result_line⟩)
      else
        StepOut.cont { s with cur := [ch], in_newline := false, rem := s.rem - 1 }
    else
      StepOut.cont { s with cur := s.cur ++ [ch], rem := s.rem - 1 }

/-- One poll round of udiald_tty_get: the inner read loop consumes every
byte the round made available (tty.c checks rem only between rounds). -/
def procChunk (lineCap : Nat) (rpfx : Option Line) : List Char → TtyState → StepOut
  | [], s => StepOut.cont s
  | ch :: rest, s =>
    match procChar lineCap rpfx s ch with
    | StepOut.done r => StepOut.done r
    | StepOut.cont s1 => procChunk lineCap rpfx rest s1

/-- The outer loop of udiald_tty_get. Each iteration first checks the byte
budget (rem > 0, otherwise ERANGE), then polls: if no further data ever
arrives the poll expires and the call fails with ETIMEDOUT. The second
component records the timeout argument passed to each poll call; tty.c
passes its timeout parameter unchanged every time. -/
def ttyGetLoop (lineCap : Nat) (rpfx : Option Line) (timeout : Int) :
    List (List Char) → TtyState → List Int → TtyGetResult × List Int
  | [], s, trace =>
    if s.rem ≤ 0 then (TtyGetResult.errRange ⟨s.committed, s.result_line⟩, trace)
    else (TtyGetResult.errTimedOut ⟨s.committed, s.result_line⟩, trace ++ [timeout])
  | chunk :: rest, s, trace =>
    if s.rem ≤ 0 then (TtyGetResult.errRange ⟨s.committed, s.result_line⟩, trace)
    else
      match procChunk lineCap rpfx chunk s with
      | StepOut.done r => (r, trace ++ [timeout])
      | StepOut.cont s1 => ttyGetLoop lineCap rpfx timeout rest s1 (trace ++ [timeout])

/-- udiald_tty_get of tty.c. rawBufSize and lineCap are the capacities of
raw_buf and raw_lines (declared in the absent header udiald.h, hence
parameters); chunks is the sequence of data chunks successive poll rounds
deliver, after which the line goes silent. Returns the result together
with the trace of timeout arguments given to poll. -/
def udiald_tty_get (rawBufSize lineCap : Nat) (rpfx : Option Line) (timeout : Int)
    (chunks : List (List Char)) : TtyGetResult × List Int :=
  ttyGetLoop lineCap rpfx timeout chunks ⟨[], [], true, none, (rawBufSize : Int)⟩ []

/-- A line that is not an asynchronous unsolicited notification. -/
def noCaret (l : Line) : Prop := l.head? ≠ some '^'

/-- Reader invariant on in-flight state: no committed line and no recorded
result line starts with a caret. -/
def stInv (s : TtyState) : Prop :=
  (∀ l ∈ s.committed, noCaret l) ∧ (∀ l, s.result_line = some l → noCaret l)

/-- Reader invariant on a finished call. -/
def resInv (res : TtyGetResult) : Prop :=
  (∀ l ∈ res.read.lines, noCaret l) ∧ (∀ l, res.read.result_line = some l → noCaret l)

def outInv : StepOut → Prop
  | .cont s => stInv s
  | .done r => resInv r

/-- What the specification words of claim C5 prescribe for the poll
timeouts: with delays listing the time consumed waiting at each poll, the
i-th poll should be issued with the remaining portion of the original
timeout. Stated from the specification for comparison with the trace the
code produces; the source passes the unchanged timeout instead. -/
def spec_remaining_timeouts (timeout : Int) (delays : List Int) : List Int :=
  (List.range delays.length).map (fun i => timeout - ((delays.take i).foldl (· + ·) 0))

/-- One guarded single-character write of udiald_tty_flatten_result: the
character is stored only if the cursor has not reached end. -/
def writeCh (acc : Line) (room : Nat) (c : Char) : Line × Nat :=
  if room = 0 then (acc, 0) else (acc ++ [c], room - 1)

/-- The inner copy loop of udiald_tty_flatten_result. The C loop runs
while the input has characters and advances the input pointer only when
the cursor has not reached end, so it terminates exactly when the whole
line fits into the remaining room, and then the whole line was copied;
otherwise it spins forever, which this model renders as none. -/
def copyChars (l : Line) (room : Nat) : Option Nat :=
  if l.length ≤ room then some (room - l.length) else none

/-- The per-line loop of udiald_tty_flatten_result: quote, line body,
quote, and a comma-space separator after every item but the last, each
single-character store individually guarded; the loop breaks once the
cursor reaches end. none marks the input on which the C code never
returns. -/
def flattenAux : List Line → Line → Nat → Option Line
  | [], acc, _ => some acc
  | l :: rest, acc, room =>
    let q1 := writeCh acc room '"'
    match copyChars l q1.2 with
    | none => none
    | some room2 =>
      let q2 := writeCh (q1.1 ++ l) room2 '"'
      let q3 :=
        if rest = [] then q2
        else
          let qa := writeCh q2.1 q2.2 ','
          writeCh qa.1 qa.2 ' '
      if q3.2 = 0 then some q3.1 else flattenAux rest q3.1 q3.2

/-- udiald_tty_flatten_result of tty.c on the committed lines of a
TtyReadBuffer. flatBufSize is the capacity of flat_buf (declared in the
absent udiald.h, hence a parameter); the C code keeps one byte for the
final NUL, so the writable room is flatBufSize - 1. none marks
non-termination of the C code. -/
def udiald_tty_flatten_result (lines : List Line) (flatBufSize : Nat) : Option Line :=
  flattenAux lines [] (flatBufSize - 1)

/-- udiald_identify of udiald.c, as a function of the outcome of writing
AT+CGMI;+CGMM (putOk) and of the udiald_tty_get transaction: it fails with
EMODEM unless the write succeeded, the terminator is UDIALD_AT_OK and at
least three lines were committed (the count r.lines includes the
terminator line itself); on success the persisted modem_name is the first
two committed lines joined by one space. -/
def udiald_identify (putOk : Bool) (res : TtyGetResult) : Except ErrCode Line :=
  match putOk, res with
  | true, TtyGetResult.term i r =>
    if i = UDIALD_AT_OK then
      if r.lines.length < 3 then Except.error ErrCode.emodem
      else Except.ok (r.lines.headD [] ++ ' ' :: r.lines.tail.headD [])
    else Except.error ErrCode.emodem
  | true, TtyGetResult.errTimedOut _ => Except.error ErrCode.emodem
  | true, TtyGetResult.errRange _ => Except.error ErrCode.emodem
  | false, _ => Except.error ErrCode.emodem

/-- Application modes of udiald (enum udiald_app). -/
inductive App
  | connect
  | scan
  | probe
  | unlock
  | pinpuk
  | dial
  | list_devices
  | list_profiles
  deriving DecidableEq

/-- Characters strpbrk is given in udiald_enter_pin and udiald_enter_puk:
double quote, CR, LF, semicolon. -/
def atForbidden : Line := ['"', '\r', '\n', ';']

def hasAtForbidden (s : Line) : Bool := s.any (fun c => atForbidden.contains c)

/-- Characters strpbrk is given for user and password in udiald_tty_pppd:
double quote, CR, LF (no semicolon there). -/
def credForbidden : Line := ['"', '\r', '\n']

def hasCredForbidden (s : Line) : Bool := s.any (fun c => credForbidden.contains c)

/-- Outcome of the enter-PIN phase up to the AT+CPIN write: the process
exits with a code (nothing was sent on the control line), or, in probe
mode, the failure is logged and the phase returns (nothing sent either),
or the quoted AT+CPIN command is transmitted. -/
inductive PinOutcome
  | exitWith (c : ErrCode)
  | probeLogReturn
  | send (cmd : Line)
  deriving DecidableEq

/-- Each failure branch of udiald_enter_pin exits through udiald_exitcode
except in probe mode, where it only logs and returns. -/
def refuseOrLog (app : App) (c : ErrCode) : PinOutcome :=
  if app = App.probe then PinOutcome.probeLogReturn else PinOutcome.exitWith c

/-- The candidate PIN: the command-line override if given, else the value
of config key udiald_pin. -/
def pinCandidate (pin_override : Option Line) (cfg : Line → Option Line) : Option Line :=
  match pin_override with
  | some q => some q
  | none => cfg ("udiald_pin").toList

/-- udiald_enter_pin of udiald.c, up to the serial write: missing or empty
PIN fails EUNLOCK; a PIN containing a forbidden character fails EINVAL; a
PIN equal to the persisted failed_pin is refused through
udiald_exitcode(UDIALD_ESIM, ...) without anything being written to the
control line; otherwise AT+CPIN="<pin>" is transmitted. -/
def udiald_enter_pin (app : App) (pin_override : Option Line)
    (cfg : Line → Option Line) (failedPin : Option Line) : PinOutcome :=
  match pinCandidate pin_override cfg with
  | none => refuseOrLog app ErrCode.eunlock
  | some p =>
    if p = [] then refuseOrLog app ErrCode.eunlock
    else if hasAtForbidden p then refuseOrLog app ErrCode.einval
    else if failedPin = some p then refuseOrLog app ErrCode.esim
    else PinOutcome.send (("AT+CPIN=\"").toList ++ p ++ ("\"\r").toList)

/-- The guard part of udiald_enter_puk of udiald.c: PUK entry demands
sim_state 2 and rejects a PUK or new PIN containing a forbidden character
with EINVAL; none means the phase proceeds to send AT+CPIN. -/
def udiald_enter_puk (simState : Int) (puk pin : Line) : Option ErrCode :=
  if simState ≠ 2 then some ErrCode.esim
  else if hasAtForbidden pin ∨ hasAtForbidden puk then some ErrCode.einval
  else none

/-- The value that udiald_tty_pppd of tty.c interpolates into the quoted
user "..." and password "..." lines of the link-daemon configuration
file: the configured string if it is non-NULL, non-empty and free of the
characters of credForbidden, the empty string otherwise. -/
def udiald_tty_pppd_cred (v : Option Line) : Line :=
  match v with
  | some s => if s ≠ [] ∧ hasCredForbidden s = false then s else []
  | none => []

/-- The five ModeTags (enum udiald_mode). -/
inductive UMode
  | auto
  | force_umts
  | force_gprs
  | prefer_umts
  | prefer_gprs
  deriving DecidableEq

/-- Modelled from the spec: udiald_modem_modestr lives in modem.c, which
is not among the provided sources; section 3 of the specification fixes
the five ModeTag names. -/
def udiald_modem_modestr : UMode → Line
  | UMode.auto => ("auto").toList
  | UMode.force_umts => ("force-umts").toList
  | UMode.force_gprs => ("force-gprs").toList
  | UMode.prefer_umts => ("prefer-umts").toList
  | UMode.prefer_gprs => ("prefer-gprs").toList

/-- Modelled from the spec: udiald_modem_modeval lives in modem.c, which
is not among the provided sources; section 8 of the specification requires
name-to-tag to invert udiald_modem_modestr on the five defined tags and to
map unknown names to the invalid sentinel, rendered here as none. -/
def udiald_modem_modeval (s : Line) : Option UMode :=
  if s = ("auto").toList then some UMode.auto
  else if s = ("force-umts").toList then some UMode.force_umts
  else if s = ("force-gprs").toList then some UMode.force_gprs
  else if s = ("prefer-umts").toList then some UMode.prefer_umts
  else if s = ("prefer-gprs").toList then some UMode.prefer_gprs
  else none

/-- The per-mode command strings of a bound configuration profile
(cfg.modecmd): none models a NULL entry (mode unsupported), some []
an empty command string. -/
structure ModeCfg where
  modecmd : UMode → Option Line

inductive SetModeOut
  | exitWith (c : ErrCode)
  | success
  deriving DecidableEq

/-- The mode name udiald_set_mode hands to udiald_modem_modeval: the value
of config key udiald_mode when set and non-empty, "auto" otherwise. -/
def effModeName (v : Option Line) : Line :=
  match v with
  | some s => if s = [] then ("auto").toList else s
  | none => ("auto").toList

/-- udiald_set_mode of udiald.c. cfgMode is the value of config key
udiald_mode; the second component records what was transmitted on the
control line together with the timeout handed to udiald_tty_get (tty.c is
called with 5000 there); putOk and res describe the transaction outcome
when one happens. An unknown tag or a NULL command exits EINVAL; an empty
command transmits nothing and the phase succeeds; otherwise a failed write
or a non-OK terminator exits EMODEM. -/
def udiald_set_mode (cfgMode : Option Line) (prof : ModeCfg) (putOk : Bool)
    (res : TtyGetResult) : SetModeOut × Option (Line × Int) :=
  match udiald_modem_modeval (effModeName cfgMode) with
  | none => (SetModeOut.exitWith ErrCode.einval, none)
  | some mode =>
    match prof.modecmd mode with
    | none => (SetModeOut.exitWith ErrCode.einval, none)
    | some cmd =>
      if cmd = [] then (SetModeOut.success, none)
      else if putOk = true ∧ res.isOk = true then (SetModeOut.success, some (cmd, 5000))
      else (SetModeOut.exitWith ErrCode.emodem, some (cmd, 5000))

/-- The tail of udiald_connect_finish of udiald.c: reapedNow says whether
the WNOHANG waitpid reaped the link daemon (otherwise it is killed, reaped
blocking, and the process exits ESIGNALED); a reaped child that died by
signal or exited 5 is treated as externally terminated (ESIGNALED); the
remaining exit statuses are translated through the pppd table. -/
def udiald_connect_finish (reapedNow wifsignaled : Bool) (wexitstatus : Nat) : ErrCode :=
  if reapedNow = false then ErrCode.esignaled
  else if wifsignaled = true ∨ wexitstatus = 5 then ErrCode.esignaled
  else if wexitstatus = 7 ∨ wexitstatus = 16 then ErrCode.emodem
  else if wexitstatus = 8 then ErrCode.edial
  else if wexitstatus = 0 ∨ wexitstatus = 15 then ErrCode.enetwork
  else if wexitstatus = 19 then ErrCode.eauth
  else ErrCode.eppp

/-- Integer-valued slice of the external config store. -/
abbrev Store := List (Line × Int)

def Store.getInt (st : Store) (k : Line) (dflt : Int) : Int :=
  match st.find? (fun kv => kv.1 == k) with
  | some kv => kv.2
  | none => dflt

def Store.setInt (st : Store) (k : Line) (v : Int) : Store := (k, v) :: st

/-- The key udiald_exitcode of udiald.c persists a fatal error code
under. -/
def errorCodeKey : Line := ("udiald_error_code").toList

/-- The key the -t guard in main of udiald.c reads. -/
def teststateKey : Line := ("udiald_error").toList

/-- The error-code bookkeeping of udiald_exitcode of udiald.c: a non-OK
code is overridden to ESIGNALED when the signaled flag is set, and any
remaining fatal code is persisted under errorCodeKey; returns the updated
store and the numeric exit status. -/
def udiald_exitcode (signaledFlag : Bool) (st : Store) (code : ErrCode) : Store × Nat :=
  let code2 := if code ≠ ErrCode.ok ∧ signaledFlag = true then ErrCode.esignaled else code
  let st2 :=
    if code2 ≠ ErrCode.ok ∧ code2 ≠ ErrCode.esignaled then
      Store.setInt st errorCodeKey (code2.toExit : Int)
    else st
  (st2, code2.toExit)

/-- The -t guard in main of udiald.c: connect is refused (exit EUNLOCK)
exactly when config key teststateKey holds the EUNLOCK code; the default
when the key is unset is UDIALD_OK. -/
def teststate_refuses (st : Store) : Bool :=
  Store.getInt st teststateKey ((ErrCode.toExit ErrCode.ok : Nat) : Int)
    == ((ErrCode.toExit ErrCode.eunlock : Nat) : Int)

/-- A candidate USB modem as discovery sees it. -/
structure UsbDev where
  vendor : Nat
  device : Nat
  driver : Line
  dev_id : Line
  deriving DecidableEq

/-- A configuration profile selector: any subset of vendor, device and
driver may be set; an unset field is a wildcard. -/
structure ProfileSel where
  pname : Line
  vendor : Option Nat
  device : Option Nat
  driver : Option Line
  deriving DecidableEq

/-- Modelled from the spec: profile matching lives in modem.c, which is
not among the provided sources; section 4.3 prescribes that a profile
matches a candidate iff every set selector field equals the candidate's
corresponding field. -/
def profileMatches (p : ProfileSel) (d : UsbDev) : Bool :=
  (match p.vendor with | some v => v == d.vendor | none => true) &&
  (match p.device with | some v => v == d.device | none => true) &&
  (match p.driver with | some v => v == d.driver | none => true)

/-- Modelled from the spec: the first matching entry of the profile list
(user profiles prepended to the built-ins) wins. -/
def matchProfile (ps : List ProfileSel) (d : UsbDev) : Option ProfileSel :=
  ps.find? (fun p => profileMatches p d)

/-- FilterSpec: the optional discovery constraints plus the
require-profile flag (UDIALD_FILTER_PROFILE, option --usable). -/
structure UFilter where
  vendor : Option Nat
  device : Option Nat
  dev_id : Option Line
  requireProfile : Bool
  deriving DecidableEq

/-- Modelled from the spec: candidate acceptance in modem.c (absent from
the provided sources) per section 4.4 - every set filter field must equal
the candidate's field, and with the require-profile flag candidates
without a matching profile are also rejected. -/
def filterAccepts (ps : List ProfileSel) (f : UFilter) (d : UsbDev) : Bool :=
  (match f.vendor with | some v => v == d.vendor | none => true) &&
  (match f.device with | some v => v == d.device | none => true) &&
  (match f.dev_id with | some v => v == d.dev_id | none => true) &&
  (!f.requireProfile || (matchProfile ps d).isSome)

/-- Modelled from the spec: udiald_modem_find_devices (modem.c, absent
from the provided sources) picks the first candidate in enumeration order
accepted by the filter and binds the matched profile (section 4.4). -/
def udiald_modem_find_devices (ps : List ProfileSel) (devs : List UsbDev) (f : UFilter) :
    Option (UsbDev × Option ProfileSel) :=
  match devs.find? (fun d => filterAccepts ps f d) with
  | some d => some (d, matchProfile ps d)
  | none => none

/-- The filter udiald_select_modem of udiald.c actually hands to
udiald_modem_find_devices: the function unconditionally ORs
UDIALD_FILTER_PROFILE into the caller's filter flags first. -/
def udiald_select_modem_filter (f : UFilter) : UFilter := { f with requireProfile := true }

/-- Byte stream of end-to-end scenario 4 of the specification. -/
def c3stream : List Char := ("^RSSI:12\r\n+CPIN: READY\r\nOK\r\n").toList

def c3pfx : Line := ("+CPIN: ").toList

/-- Identify response of end-to-end scenario 1 of the specification. -/
def c4stream : List Char := ("Huawei\r\nE220\r\nOK\r\n").toList

def c4res : TtyGetResult := (udiald_tty_get 512 16 none 2500 [c4stream]).1

/-- A committed-lines buffer used to exercise udiald_identify. -/
def c4wr : TtyRead := ⟨[("A").toList, ("B").toList, ("OK").toList], none⟩

/-- A response arriving in two poll rounds: first "O", then "K" CR. -/
def c5chunks : List (List Char) := [("O").toList, ("K\r").toList]

def pin1234 : Line := ("1234").toList

/-- Config store lookup holding only udiald_pin=1234. -/
def cfgC1 : Line → Option Line :=
  fun k => if k = ("udiald_pin").toList then some pin1234 else none

/-- A profile command table supporting only the auto tag, with the command
of the Huawei K3520 built-in profile of deviceconfig.h. -/
def c7prof : ModeCfg :=
  ⟨fun m => if m = UMode.auto then some (("AT^SYSCFG=2,2,40000000,2,4\r").toList) else none⟩

def c10prof : ProfileSel := ⟨("generic").toList, none, none, none⟩

def c10dev : UsbDev := ⟨0x12d1, 0x1001, ("option").toList, ("1-1.2").toList⟩

def c10filter : UFilter := ⟨none, none, none, false⟩

/-- Helper: the result line recorded by updResult never starts with a
caret if the old record and the committed line are caret-free. -/
theorem updResult_inv (rpfx old : Option Line) (start : Line)
    (hold : ∀ l, old = some l → noCaret l) (hstart : noCaret start) :
    ∀ l, updResult rpfx old start = some l → noCaret l := by
  intro l hl
  cases old with
  | some r =>
    simp only [updResult] at hl
    injection hl with h
    exact h ▸ hold r rfl
  | none =>
    cases rpfx with
    | none =>
      simp only [updResult] at hl
      exact Option.noConfusion hl
    | some p =>
      simp only [updResult] at hl
      by_cases hp : p.isPrefixOf start
      · rw [if_pos hp] at hl
        injection hl with h
        exact h ▸ hstart
      · rw [if_neg hp] at hl
        exact Option.noConfusion hl

/-- Helper: committing a line preserves the caret-freedom invariant. -/
theorem commitLine_inv (rpfx : Option Line) (s : TtyState) (h : stInv s) :
    outInv (commitLine rpfx s) := by
  obtain ⟨h1, h2⟩ := h
  unfold commitLine
  by_cases hc : s.cur.head? = some '^'
  · rw [if_pos hc]
    exact ⟨h1, h2⟩
  · rw [if_neg hc]
    have hcom : ∀ l ∈ s.committed ++ [s.cur], noCaret l := by
      intro l hl
      rcases List.mem_append.mp hl with hmem | hmem
      · exact h1 l hmem
      · rw [List.mem_singleton.mp hmem]
        exact hc
    have hres := updResult_inv rpfx s.result_line s.cur h2 hc
    cases hft : findTermIdx ttyresstr s.cur 0 with
    | some i => exact ⟨hcom, hres⟩
    | none => exact ⟨hcom, hres⟩

/-- Helper: one byte of the read loop preserves the invariant. -/
theorem procChar_inv (lineCap : Nat) (rpfx : Option Line) (s : TtyState) (ch : Char)
    (h : stInv s) : outInv (procChar lineCap rpfx s ch) := by
  unfold procChar
  by_cases hnl : ch = '\r' ∨ ch = '\n'
  · rw [if_pos hnl]
    by_cases hin : s.in_newline
    · simp only [hin, if_true]
      exact h
    · simp only [hin, if_false, Bool.false_eq_true]
      exact commitLine_inv rpfx s h
  · rw [if_neg hnl]
    by_cases hin : s.in_newline
    · simp only [hin, if_true]
      by_cases hcap : s.committed.length = lineCap - 1
      · rw [if_pos hcap]
        exact ⟨h.1, h.2⟩
      · rw [if_neg hcap]
        exact ⟨h.1, h.2⟩
    · simp only [hin, if_false, Bool.false_eq_true]
      exact ⟨h.1, h.2⟩

/-- Helper: a whole poll round preserves the invariant. -/
theorem procChunk_inv (lineCap : Nat) (rpfx : Option Line) :
    ∀ (chunk : List Char) (s : TtyState), stInv s →
      outInv (procChunk lineCap rpfx chunk s) := by
  intro chunk
  induction chunk with
  | nil =>
    intro s h
    exact h
  | cons ch rest ih =>
    intro s h
    have hstep := procChar_inv lineCap rpfx s ch h
    unfold procChunk
    cases hp : procChar lineCap rpfx s ch with
    | done r =>
      rw [hp] at hstep
      exact hstep
    | cont s1 =>
      rw [hp] at hstep
      exact ih s1 hstep

/-- Helper: the outer loop preserves the invariant to the final result. -/
theorem ttyGetLoop_inv (lineCap : Nat) (rpfx : Option Line) (timeout : Int) :
    ∀ (chunks : List (List Char)) (s : TtyState) (trace : List Int), stInv s →
      resInv (ttyGetLoop lineCap rpfx timeout chunks s trace).1 := by
  intro chunks
  induction chunks with
  | nil =>
    intro s trace h
    unfold ttyGetLoop
    by_cases hr : s.rem ≤ 0
    · rw [if_pos hr]
      exact ⟨h.1, h.2⟩
    · rw [if_neg hr]
      exact ⟨h.1, h.2⟩
  | cons chunk rest ih =>
    intro s trace h
    unfold ttyGetLoop
    by_cases hr : s.rem ≤ 0
    · rw [if_pos hr]
      exact ⟨h.1, h.2⟩
    · rw [if_neg hr]
      have hstep := procChunk_inv lineCap rpfx chunk s h
      cases hp : procChunk lineCap rpfx chunk s with
      | done r =>
        rw [hp] at hstep
        exact hstep
      | cont s1 =>
        rw [hp] at hstep
        exact ih s1 (trace ++ [timeout]) hstep

/-- Helper: every timeout argument the loop hands to poll equals the
caller's timeout. -/
theorem ttyGetLoop_trace (lineCap : Nat) (rpfx : Option Line) (timeout : Int) :
    ∀ (chunks : List (List Char)) (s : TtyState) (trace : List Int),
      (∀ a ∈ trace, a = timeout) →
      ∀ a ∈ (ttyGetLoop lineCap rpfx timeout chunks s trace).2, a = timeout := by
  intro chunks
  induction chunks with
  | nil =>
    intro s trace h
    unfold ttyGetLoop
    by_cases hr : s.rem ≤ 0
    · rw [if_pos hr]
      exact h
    · rw [if_neg hr]
      intro a ha
      rcases List.mem_append.mp ha with h1 | h1
      · exact h a h1
      · rw [List.mem_singleton.mp h1]
  | cons chunk rest ih =>
    intro s trace h
    unfold ttyGetLoop
    by_cases hr : s.rem ≤ 0
    · rw [if_pos hr]
      exact h
    · rw [if_neg hr]
      have htr : ∀ a ∈ trace ++ [timeout], a = timeout := by
        intro a ha
        rcases List.mem_append.mp ha with h1 | h1
        · exact h a h1
        · rw [List.mem_singleton.mp h1]
      cases hp : procChunk lineCap rpfx chunk s with
      | done r => exact htr
      | cont s1 => exact ih s1 (trace ++ [timeout]) htr

/-- C2 (code_bug): the -t guard in main reads config key udiald_error,
but udiald_exitcode persists fatal codes under udiald_error_code; the two
keys differ, so on the store left behind by a previous run that exited
with the fatal UNLOCK code the guard does not fire and connect proceeds
to modem discovery, where the claim requires it to exit UNLOCK (7). -/
theorem C2_teststate_key_dead :
    teststateKey ≠ errorCodeKey ∧
    teststate_refuses (udiald_exitcode false [] ErrCode.eunlock).1 = false := by
  decide

/-- C8 (code_bug): on a buffer whose one committed line is "ABCDEF" and a
5-byte flat_buf (writable room 4), the quote is stored and the copy loop
then reaches end with characters of the line remaining; since tty.c
advances the input pointer only when the cursor has not reached end, the
loop never terminates, which the model renders as none. With a 9-byte
flat_buf the same buffer flattens normally. -/
theorem C8_flatten_nonterminating :
    udiald_tty_flatten_result [("ABCDEF").toList] 5 = none ∧
    udiald_tty_flatten_result [("ABCDEF").toList] 9 = some (("\"ABCDEF\"").toList) := by
  decide

/-- C3: for every input stream, every poll chunking, every prefix and all
buffer capacities, no line committed by udiald_tty_get and no recorded
result line begins with a caret; and on the stream of scenario 4,
^RSSI:12 CRLF +CPIN: READY CRLF OK CRLF with prefix "+CPIN: ", the reader
returns tag UDIALD_AT_OK with exactly the two lines "+CPIN: READY" and
"OK" and result line "+CPIN: READY". -/
theorem C3_caret_never_committed :
    (∀ (bufSize lineCap : Nat) (rpfx : Option Line) (timeout : Int)
        (chunks : List (List Char)) (l : Line),
      (l ∈ ((udiald_tty_get bufSize lineCap rpfx timeout chunks).1).read.lines →
        l.head? ≠ some '^') ∧
      (((udiald_tty_get bufSize lineCap rpfx timeout chunks).1).read.result_line = some l →
        l.head? ≠ some '^')) ∧
    udiald_tty_get 512 16 (some c3pfx) 2500 [c3stream] =
      (TtyGetResult.term UDIALD_AT_OK
        ⟨[("+CPIN: READY").toList, ("OK").toList], some (("+CPIN: READY").toList)⟩,
       [2500]) := by
  constructor
  · intro bufSize lineCap rpfx timeout chunks l
    have hinv := ttyGetLoop_inv lineCap rpfx timeout chunks
      ⟨[], [], true, none, (bufSize : Int)⟩ []
      ⟨fun l hl => absurd hl (List.not_mem_nil l), fun l hl => Option.noConfusion hl⟩
    exact ⟨fun hm => hinv.1 l hm, fun hm => hinv.2 l hm⟩
  · decide

/-- Witness for C3 at the stream of scenario 4 and its first committed
line. -/
theorem C3_caret_witness : (("+CPIN: READY").toList).head? ≠ some '^' :=
  (C3_caret_never_committed.1 512 16 (some c3pfx) 2500 [c3stream]
    (("+CPIN: READY").toList)).1 (by decide)

/-- C5 counterexample: on a response arriving in two poll rounds, tty.c
passes the unchanged timeout 2500 to both poll calls, while the claim
prescribes the remaining portion of the budget - with the first poll
having consumed 1000 ms, 1500 ms would remain for the second. -/
theorem C5_poll_full_timeout_counterexample :
    (udiald_tty_get 512 16 none 2500 c5chunks).2 = [2500, 2500] ∧
    spec_remaining_timeouts 2500 [1000, 0] = [2500, 1500] ∧
    (udiald_tty_get 512 16 none 2500 c5chunks).2 ≠ spec_remaining_timeouts 2500 [1000, 0] := by
  decide

/-- C5 (amended): every poll between read attempts is issued with the full
original timeout T (so each individual wait is bounded by T, though the
total across several polls may exceed T), and a poll that expires with no
data makes the reader fail with errno ETIMEDOUT. -/
theorem C5_poll_timeout_amended :
    ∀ (bufSize lineCap : Nat) (rpfx : Option Line) (timeout : Int)
      (chunks : List (List Char)) (s : TtyState),
      (∀ a ∈ (udiald_tty_get bufSize lineCap rpfx timeout chunks).2, a = timeout) ∧
      (0 < s.rem →
        ttyGetLoop lineCap rpfx timeout [] s [] =
          (TtyGetResult.errTimedOut ⟨s.committed, s.result_line⟩, [timeout])) := by
  intro bufSize lineCap rpfx timeout chunks s
  constructor
  · exact ttyGetLoop_trace lineCap rpfx timeout chunks _ []
      (fun a ha => absurd ha (List.not_mem_nil a))
  · intro hr
    unfold ttyGetLoop
    rw [if_neg (by omega)]
    rfl

/-- Witness for C5 at a concrete silent line and a state with budget
left. -/
theorem C5_poll_timeout_witness :
    ttyGetLoop 16 none 2500 [] ⟨[], [], true, none, 5⟩ [] =
      (TtyGetResult.errTimedOut ⟨[], none⟩, [2500]) :=
  (C5_poll_timeout_amended 512 16 none 2500 [] ⟨[], [], true, none, 5⟩).2 (by decide)

/-- C4 counterexample: on the identify response of scenario 1,
Huawei CRLF E220 CRLF OK CRLF, the committed lines are "Huawei", "E220"
and "OK" - the terminator line is the third committed line, so only two
response lines precede the terminator - yet udiald_identify succeeds
(r.lines is 3 because the count includes the terminator line), where the
claim requires failure unless at least three response lines precede the
terminator. -/
theorem C4_two_preceding_lines_suffice :
    udiald_identify true c4res = Except.ok (("Huawei E220").toList) ∧
    c4res.read.lines = [("Huawei").toList, ("E220").toList, ("OK").toList] ∧
    c4res.read.lines.length - 1 = 2 ∧
    ¬ 3 ≤ c4res.read.lines.length - 1 :=
  ⟨rfl, by decide, by decide, by decide⟩

/-- C4 (amended): the identify phase fails with EMODEM unless the write
succeeded, the transaction ends with the OK terminator and at least three
lines are committed including the terminator line (so at least two
response lines precede the terminator); on success the persisted
modem_name is the first two committed lines joined by one space. -/
theorem C4_identify_amended :
    (∀ res, udiald_identify false res = Except.error ErrCode.emodem) ∧
    (∀ r, udiald_identify true (TtyGetResult.errTimedOut r) = Except.error ErrCode.emodem) ∧
    (∀ r, udiald_identify true (TtyGetResult.errRange r) = Except.error ErrCode.emodem) ∧
    (∀ i r, i ≠ UDIALD_AT_OK →
      udiald_identify true (TtyGetResult.term i r) = Except.error ErrCode.emodem) ∧
    (∀ r, r.lines.length < 3 →
      udiald_identify true (TtyGetResult.term UDIALD_AT_OK r) = Except.error ErrCode.emodem) ∧
    (∀ r, 3 ≤ r.lines.length →
      udiald_identify true (TtyGetResult.term UDIALD_AT_OK r) =
        Except.ok (r.lines.headD [] ++ ' ' :: r.lines.tail.headD [])) := by
  refine ⟨?_, ?_, ?_, ?_, ?_, ?_⟩
  · intro res
    cases res <;> rfl
  · intro r
    rfl
  · intro r
    rfl
  · intro i r hi
    simp only [udiald_identify]
    rw [if_neg hi]
  · intro r h
    simp only [udiald_identify]
    rw [if_pos trivial, if_pos h]
  · intro r h
    simp only [udiald_identify]
    rw [if_pos trivial, if_neg (by omega)]

/-- Witness for C4 on concrete transaction outcomes. -/
theorem C4_identify_witness :
    udiald_identify true (TtyGetResult.term 1 c4wr) = Except.error ErrCode.emodem ∧
    udiald_identify true (TtyGetResult.term UDIALD_AT_OK ⟨[("A").toList], none⟩) =
      Except.error ErrCode.emodem ∧
    udiald_identify true (TtyGetResult.term UDIALD_AT_OK c4wr) =
      Except.ok (c4wr.lines.headD [] ++ ' ' :: c4wr.lines.tail.headD []) := by
  have h := C4_identify_amended
  exact ⟨h.2.2.2.1 1 c4wr (by decide),
    h.2.2.2.2.1 ⟨[("A").toList], none⟩ (by decide),
    h.2.2.2.2.2 c4wr (by decide)⟩

/-- C6: translation of the reaped link daemon's status in
udiald_connect_finish - 7 or 16 give EMODEM, 8 gives EDIAL, 0 or 15 give
ENETWORK, 19 gives EAUTH, exit status 5 or death by signal is treated as
signaled, and every other exit status gives EPPP. -/
theorem C6_pppd_exit_translation :
    ∀ n : Nat,
      udiald_connect_finish true false 7 = ErrCode.emodem ∧
      udiald_connect_finish true false 16 = ErrCode.emodem ∧
      udiald_connect_finish true false 8 = ErrCode.edial ∧
      udiald_connect_finish true false 0 = ErrCode.enetwork ∧
      udiald_connect_finish true false 15 = ErrCode.enetwork ∧
      udiald_connect_finish true false 19 = ErrCode.eauth ∧
      udiald_connect_finish true false 5 = ErrCode.esignaled ∧
      udiald_connect_finish true true n = ErrCode.esignaled ∧
      (n ∉ ([0, 5, 7, 8, 15, 16, 19] : List Nat) →
        udiald_connect_finish true false n = ErrCode.eppp) := by
  intro n
  refine ⟨by decide, by decide, by decide, by decide, by decide, by decide, by decide, ?_, ?_⟩
  · simp [udiald_connect_finish]
  · intro hn
    simp only [List.mem_cons, List.not_mem_nil, or_false, not_or] at hn
    obtain ⟨h0, h5, h7, h8, h15, h16, h19⟩ := hn
    simp [udiald_connect_finish, h0, h5, h7, h8, h15, h16, h19]

/-- Witness for C6 at the uncovered exit status 42. -/
theorem C6_pppd_exit_translation_witness :
    udiald_connect_finish true false 42 = ErrCode.eppp := by
  have h := C6_pppd_exit_translation 42
  exact h.2.2.2.2.2.2.2.2 (by decide)

/-- C1 counterexample: with failed_pin 1234 persisted and candidate PIN
1234 in connect mode, the refusal branch of udiald_enter_pin exits through
udiald_exitcode(UDIALD_ESIM, ...), that is with exit code 6 (SIM), not
with exit code UNLOCK (7) as the claim states. -/
theorem C1_refuse_exits_esim_not_eunlock :
    udiald_enter_pin App.connect none cfgC1 (some pin1234) =
      PinOutcome.exitWith ErrCode.esim ∧
    ErrCode.toExit ErrCode.esim = 6 ∧
    udiald_enter_pin App.connect none cfgC1 (some pin1234) ≠
      PinOutcome.exitWith ErrCode.eunlock ∧
    ErrCode.toExit ErrCode.eunlock = 7 := by
  decide

/-- C1 (amended): if a non-empty persisted failed_pin equals the candidate
PIN (whether the command-line override or the value of config key
udiald_pin), the enter-PIN phase refuses the attempt - outside probe mode
the process exits with code SIM (6), in probe mode the failure is only
logged - and in both cases nothing is sent on the serial control line in
this phase. -/
theorem C1_failed_pin_refused :
    ∀ (app : App) (ov : Option Line) (cfg : Line → Option Line) (p : Line),
      p ≠ [] → hasAtForbidden p = false →
      (ov = some p ∨ (ov = none ∧ cfg (("udiald_pin").toList) = some p)) →
      (app = App.probe → udiald_enter_pin app ov cfg (some p) = PinOutcome.probeLogReturn) ∧
      (app ≠ App.probe →
        udiald_enter_pin app ov cfg (some p) = PinOutcome.exitWith ErrCode.esim) ∧
      (∀ cmd, udiald_enter_pin app ov cfg (some p) ≠ PinOutcome.send cmd) := by
  intro app ov cfg p hne hforb hsrc
  have hmain : udiald_enter_pin app ov cfg (some p) = refuseOrLog app ErrCode.esim := by
    rcases hsrc with rfl | ⟨rfl, hcfg⟩
    · simp only [udiald_enter_pin, pinCandidate]
      rw [if_neg hne, if_neg (by simp [hforb]), if_pos trivial]
    · simp only [udiald_enter_pin, pinCandidate, hcfg]
      rw [if_neg hne, if_neg (by simp [hforb]), if_pos trivial]
  refine ⟨?_, ?_, ?_⟩
  · intro hp
    rw [hmain]
    simp only [refuseOrLog]
    rw [if_pos hp]
  · intro hp
    rw [hmain]
    simp only [refuseOrLog]
    rw [if_neg hp]
  · intro cmd
    rw [hmain]
    simp only [refuseOrLog]
    by_cases hp : app = App.probe
    · rw [if_pos hp]
      exact fun h => PinOutcome.noConfusion h
    · rw [if_neg hp]
      exact fun h => PinOutcome.noConfusion h

/-- Witness for C1 at PIN 1234 in connect and probe modes. -/
theorem C1_failed_pin_refused_witness :
    udiald_enter_pin App.connect (some pin1234) cfgC1 (some pin1234) =
      PinOutcome.exitWith ErrCode.esim ∧
    udiald_enter_pin App.probe (some pin1234) cfgC1 (some pin1234) =
      PinOutcome.probeLogReturn ∧
    udiald_enter_pin App.connect (some pin1234) cfgC1 (some pin1234) ≠
      PinOutcome.send (("x").toList) := by
  have h1 := C1_failed_pin_refused App.connect (some pin1234) cfgC1 pin1234
    (by decide) (by decide) (Or.inl rfl)
  have h2 := C1_failed_pin_refused App.probe (some pin1234) cfgC1 pin1234
    (by decide) (by decide) (Or.inl rfl)
  exact ⟨h1.2.1 (by decide), h2.1 rfl, h1.2.2 (("x").toList)⟩

/-- C7: the set-mode phase takes the ModeTag from config key udiald_mode,
defaulting to auto when the key is unset or empty; an unknown tag name or
a profile without a command for the tag exits EINVAL; an empty command
string sends nothing and the phase succeeds; otherwise the command is
handed to the serial line with a 5000 ms timeout and a failed write or a
non-OK terminator exits EMODEM. -/
theorem C7_set_mode_behavior :
    ∀ (cfgMode : Option Line) (prof : ModeCfg) (putOk : Bool) (res : TtyGetResult)
      (mode : UMode) (cmd : Line),
      (effModeName none = ("auto").toList ∧ effModeName (some []) = ("auto").toList) ∧
      (udiald_modem_modeval (effModeName cfgMode) = none →
        udiald_set_mode cfgMode prof putOk res = (SetModeOut.exitWith ErrCode.einval, none)) ∧
      (udiald_modem_modeval (effModeName cfgMode) = some mode → prof.modecmd mode = none →
        udiald_set_mode cfgMode prof putOk res = (SetModeOut.exitWith ErrCode.einval, none)) ∧
      (udiald_modem_modeval (effModeName cfgMode) = some mode → prof.modecmd mode = some [] →
        udiald_set_mode cfgMode prof putOk res = (SetModeOut.success, none)) ∧
      (udiald_modem_modeval (effModeName cfgMode) = some mode → prof.modecmd mode = some cmd →
        cmd ≠ [] →
        (udiald_set_mode cfgMode prof putOk res).2 = some (cmd, 5000) ∧
        (putOk = true ∧ res.isOk = true →
          (udiald_set_mode cfgMode prof putOk res).1 = SetModeOut.success) ∧
        (¬ (putOk = true ∧ res.isOk = true) →
          (udiald_set_mode cfgMode prof putOk res).1 = SetModeOut.exitWith ErrCode.emodem)) := by
  intro cfgMode prof putOk res mode cmd
  refine ⟨⟨rfl, rfl⟩, ?_, ?_, ?_, ?_⟩
  · intro h
    simp only [udiald_set_mode, h]
  · intro h1 h2
    simp only [udiald_set_mode, h1, h2]
  · intro h1 h2
    simp only [udiald_set_mode, h1, h2]
    rw [if_pos trivial]
  · intro h1 h2 hne
    have hbody : udiald_set_mode cfgMode prof putOk res =
        (if putOk = true ∧ res.isOk = true then (SetModeOut.success, some (cmd, 5000))
         else (SetModeOut.exitWith ErrCode.emodem, some (cmd, 5000))) := by
      simp only [udiald_set_mode, h1, h2]
      rw [if_neg hne]
    refine ⟨?_, ?_, ?_⟩
    · rw [hbody]
      by_cases hok : putOk = true ∧ res.isOk = true
      · rw [if_pos hok]
      · rw [if_neg hok]
    · intro hok
      rw [hbody, if_pos hok]
    · intro hok
      rw [hbody, if_neg hok]

/-- Witness for C7 at an unset key, the auto command of the Huawei K3520
profile and a successful transaction. -/
theorem C7_set_mode_witness :
    (udiald_set_mode none c7prof true (TtyGetResult.term 0 ⟨[("OK").toList], none⟩)).1 =
      SetModeOut.success ∧
    (udiald_set_mode none c7prof true (TtyGetResult.term 0 ⟨[("OK").toList], none⟩)).2 =
      some ((("AT^SYSCFG=2,2,40000000,2,4\r").toList), 5000) := by
  have h := C7_set_mode_behavior none c7prof true (TtyGetResult.term 0 ⟨[("OK").toList], none⟩)
    UMode.auto (("AT^SYSCFG=2,2,40000000,2,4\r").toList)
  have h5 := h.2.2.2.2 (by decide) (by decide) (by decide)
  exact ⟨h5.2.1 ⟨rfl, rfl⟩, h5.1⟩

/-- C9 counterexample: a username containing a semicolon passes the
strpbrk check of udiald_tty_pppd (whose forbidden set there is only
double quote, CR and LF) and is emitted verbatim into the link-daemon
configuration file, where the claim states it is rejected. -/
theorem C9_semicolon_passes_cred_filter :
    udiald_tty_pppd_cred (some (("a;b").toList)) = ("a;b").toList ∧
    (';') ∈ ("a;b").toList := by
  decide

/-- C9 (amended): PIN and PUK, interpolated into quoted AT-command
literals, are rejected with EINVAL when they contain double quote, CR, LF
or semicolon; a username or password containing double quote, CR or LF is
replaced by the empty string in the link-daemon configuration file (so
the emitted value never contains those three characters), but a
semicolon-bearing username or password is emitted verbatim. -/
theorem C9_forbidden_chars_amended :
    ∀ (p puk npin : Line) (v : Option Line) (app : App) (cfg : Line → Option Line)
      (failed : Option Line),
      (hasAtForbidden npin = true ∨ hasAtForbidden puk = true →
        udiald_enter_puk 2 puk npin = some ErrCode.einval) ∧
      (hasAtForbidden p = true → app ≠ App.probe →
        udiald_enter_pin app (some p) cfg failed = PinOutcome.exitWith ErrCode.einval) ∧
      (hasCredForbidden (udiald_tty_pppd_cred v) = false) ∧
      (∀ s, s ≠ [] → hasCredForbidden s = false → udiald_tty_pppd_cred (some s) = s) := by
  intro p puk npin v app cfg failed
  refine ⟨?_, ?_, ?_, ?_⟩
  · intro h
    unfold udiald_enter_puk
    rw [if_neg (show ¬((2 : Int) ≠ 2) by simp), if_pos h]
  · intro hforb happ
    have hne : p ≠ [] := by
      intro he
      rw [he] at hforb
      simp [hasAtForbidden] at hforb
    simp only [udiald_enter_pin, pinCandidate]
    rw [if_neg hne, if_pos hforb]
    simp only [refuseOrLog]
    rw [if_neg happ]
  · cases v with
    | none => rfl
    | some s =>
      simp only [udiald_tty_pppd_cred]
      by_cases hcond : s ≠ [] ∧ hasCredForbidden s = false
      · rw [if_pos hcond]
        exact hcond.2
      · rw [if_neg hcond]
        rfl
  · intro s hs hf
    simp only [udiald_tty_pppd_cred]
    rw [if_pos ⟨hs, hf⟩]

/-- Witness for C9 at a semicolon PUK, a quote-bearing PIN and a plain
username. -/
theorem C9_forbidden_chars_witness :
    udiald_enter_puk 2 ((";").toList) (("1234").toList) = some ErrCode.einval ∧
    udiald_enter_pin App.connect (some (("12\"34").toList)) cfgC1 none =
      PinOutcome.exitWith ErrCode.einval ∧
    udiald_tty_pppd_cred (some (("user").toList)) = ("user").toList := by
  have h := C9_forbidden_chars_amended (("12\"34").toList) ((";").toList) (("1234").toList)
    (some (("user").toList)) App.connect cfgC1 none
  exact ⟨h.1 (Or.inr (by decide)), h.2.1 (by decide) (by decide),
    h.2.2.2 (("user").toList) (by decide) (by decide)⟩

/-- C10: udiald_select_modem unconditionally sets the require-profile
filter flag before discovery, so whatever filter the command line built
(with or without --usable), any modem udiald_modem_find_devices returns in
the connect, scan, probe, unlock-PIN and enter-PUK flows comes with a
matching configuration profile bound. -/
theorem C10_require_profile_always :
    ∀ (ps : List ProfileSel) (devs : List UsbDev) (f : UFilter) (d : UsbDev)
      (po : Option ProfileSel),
      (udiald_select_modem_filter f).requireProfile = true ∧
      (udiald_modem_find_devices ps devs (udiald_select_modem_filter f) = some (d, po) →
        ∃ pr, po = some pr ∧ profileMatches pr d = true) := by
  intro ps devs f d po
  refine ⟨rfl, ?_⟩
  intro hfind
  unfold udiald_modem_find_devices at hfind
  cases hf : devs.find? (fun dd => filterAccepts ps (udiald_select_modem_filter f) dd) with
  | none =>
    rw [hf] at hfind
    exact Option.noConfusion hfind
  | some d0 =>
    rw [hf] at hfind
    have hacc := List.find?_some hf
    injection hfind with hpair
    have hd : d0 = d := congrArg Prod.fst hpair
    have hpo : matchProfile ps d0 = po := congrArg Prod.snd hpair
    subst hd
    have hflag : (matchProfile ps d0).isSome = true := by
      simp only [filterAccepts, udiald_select_modem_filter, Bool.and_eq_true, Bool.not_true,
        Bool.false_or] at hacc
      exact hacc.2
    obtain ⟨pr, hpr⟩ := Option.isSome_iff_exists.mp hflag
    refine ⟨pr, ?_, ?_⟩
    · rw [← hpo, hpr]
    · have hpr2 : ps.find? (fun q => profileMatches q d0) = some pr := hpr
      have hpm := List.find?_some hpr2
      exact hpm

/-- Witness for C10 at a wildcard user profile and one candidate. -/
theorem C10_require_profile_witness :
    ∃ pr, (some c10prof : Option ProfileSel) = some pr ∧ profileMatches pr c10dev = true :=
  (C10_require_profile_always [c10prof] [c10dev] c10filter c10dev (some c10prof)).2 (by decide)
